import Mathlib

/-!
Verification development for the log-analytics self-healing pipeline.

Each Python function relevant to the checked properties is shallowly embedded
as an executable Lean definition.  File/network side effects (CloudWatch
queries, Snowflake cursors, `kubectl` subprocesses, file writes) are modelled
by passing their observable inputs and outputs explicitly; machine state that
the Python code mutates (dedup sets, read offsets, the recent-pods map) is
threaded as explicit values.

Sources embedded here:
  - `monitor_agent.py` (`MonitorAgent._search_errors`) and the identical dedup
    guard of `monitor.py` (`search_snowflake_errors` / `search_kubernetes_errors`);
  - `monitor.py` (`MonitorAgent.run`, the periodic `recent_pods` cleanup);
  - `analyzer_agent.py` (`AnalyzerAgent._read_new_errors`) and the identical
    offset bookkeeping of `agent.py` (`ErrorAnalyzerAgent.run`);
  - `agent.py` (`ErrorAnalyzerAgent._extract_pod_info`,
    `_modify_pod_manifest`, and the response-parsing part of `analyze_error`);
  - `fixer.py` (`FixerAgent.execute_fix`).
-/

namespace LogAgent

/-! ## Python string primitives -/

/-- Python `needle in haystack` for strings: substring containment. -/
def pyIn (needle hay : String) : Bool :=
  decide (needle.toList <:+: hay.toList)

/-- One pass of Python `s.replace(pat, rep)` over the character list:
at each position, if the (nonempty) pattern starts here, emit the
replacement and jump past the pattern, else keep the character.  Fuel is the
remaining length, which bounds the number of steps. -/
def replaceLoop (pat rep : List Char) : Nat → List Char → List Char
  | 0, cs => cs
  | fuel + 1, cs =>
    match cs with
    | [] => []
    | c :: rest =>
      if pat.isPrefixOf (c :: rest) then
        rep ++ replaceLoop pat rep fuel ((c :: rest).drop pat.length)
      else c :: replaceLoop pat rep fuel rest

/-- Python `s.replace(pat, rep)`: replace every (non-overlapping, leftmost)
occurrence.  (Python's empty-pattern behaviour is irrelevant here — the code
only replaces `"m"`, `"Mi"`, `"Gi"`.) -/
def pyReplace (s pat rep : String) : String :=
  if pat.isEmpty then s
  else String.mk (replaceLoop pat.toList rep.toList s.length s.toList)

/-- Digits of a decimal literal folded to a `Nat`. -/
def natOfDigits (ds : List Char) : Nat :=
  ds.foldl (fun a c => 10 * a + (c.toNat - '0'.toNat)) 0

/-- All-digit check for a nonempty character list. -/
def allDigits (ds : List Char) : Bool :=
  !ds.isEmpty && ds.all (fun c => c.isDigit)

/-- Python `int(s)` on plain (optionally `-`-signed) digit strings.
`none` models the `ValueError` that `int()` raises on anything else.
(The Python built-in additionally tolerates surrounding whitespace and a
leading `+`; the strings reaching `int()` in this code are bare digit
literals, so that tolerance is irrelevant here.) -/
def pyInt? (s : String) : Option Int :=
  match s.toList with
  | '-' :: ds => if allDigits ds then some (-(natOfDigits ds : Int)) else none
  | ds => if allDigits ds then some (natOfDigits ds : Int) else none

/-- An exact decimal value `num / 10^scale`.  The floats handled by the code
come from short decimal literals and are only doubled and halved; doubling
and halving a binary double are exact scalings (no rounding down to the
subnormal range), and CPython `repr` of such a double prints the shortest
decimal, i.e. this exact decimal without trailing zeros.  Exact decimals
therefore model the relevant slice of CPython float semantics faithfully. -/
structure DecFloat where
  num : Int
  scale : Nat
deriving Repr, DecidableEq

/-- Python `float(s)` on plain decimal literals (optional sign, digits,
optional fractional part).  `none` models the `ValueError` on anything else.
Exponent forms (`1e3`) are outside this model. -/
def pyFloat? (s : String) : Option DecFloat :=
  let parseUnsigned : List Char → Option DecFloat := fun cs =>
    let ip := cs.takeWhile (fun c => c.isDigit)
    let rest := cs.dropWhile (fun c => c.isDigit)
    match rest with
    | [] => if ip.isEmpty then none else some ⟨(natOfDigits ip : Int), 0⟩
    | '.' :: fp =>
      let fd := fp.takeWhile (fun c => c.isDigit)
      let rest2 := fp.dropWhile (fun c => c.isDigit)
      if rest2.isEmpty && !(ip.isEmpty && fd.isEmpty) then
        some ⟨(natOfDigits ip * 10 ^ fd.length + natOfDigits fd : Int), fd.length⟩
      else none
    | _ => none
  match s.toList with
  | '-' :: cs => (parseUnsigned cs).map (fun d => ⟨-d.num, d.scale⟩)
  | '+' :: cs => parseUnsigned cs
  | cs => parseUnsigned cs

/-- `x * 2` on an exact decimal (exact in binary floating point too). -/
def DecFloat.double (d : DecFloat) : DecFloat :=
  ⟨d.num * 2, d.scale⟩

/-- `x / 2` on an exact decimal: multiply by 5 and shift the point. -/
def DecFloat.halve (d : DecFloat) : DecFloat :=
  ⟨d.num * 5, d.scale + 1⟩

/-- Left-pad a numeral string with zeros to width `k`. -/
def padZeros (s : String) (k : Nat) : String :=
  String.mk (List.replicate (k - s.length) '0') ++ s

/-- Strip trailing decimal zeros: the shortest representation of the value. -/
def dropTrailingZeros : Nat → Int → Nat → Int × Nat
  | 0, n, s => (n, s)
  | fuel + 1, n, s =>
    if s = 0 then (n, s)
    else if n % 10 = 0 then dropTrailingZeros fuel (n / 10) (s - 1)
    else (n, s)

/-- CPython `f"{x}"` / `repr(x)` of an exact-decimal float: the shortest
decimal digits, with `.0` appended to integral values (`repr(2.0) = "2.0"`). -/
def pyFloatRepr (d : DecFloat) : String :=
  let (n, s) := dropTrailingZeros d.scale d.num d.scale
  let sign := if n < 0 then "-" else ""
  let m := n.natAbs
  let ip := m / 10 ^ s
  let fr := m % 10 ^ s
  let frStr := if s = 0 then "0" else padZeros (Nat.repr fr) s
  sign ++ Nat.repr ip ++ "." ++ frStr

/-! ## Event-window scanner (`monitor_agent.py _search_errors`,
`monitor.py search_snowflake_errors` / `search_kubernetes_errors`)

A CloudWatch event as consumed by the scanner: its `eventId` and `message`
fields.  The dedup set `seen_event_ids` and the accumulated `errors` list are
threaded explicitly; `_search_errors` folds the event list of a
`filter_log_events` response through the per-event body. -/

structure LogEvent where
  eventId : String
  message : String
deriving Repr, DecidableEq

/-- `monitor_agent.py` lines 107-109: the error classification applied to a
fetched message. -/
def isSnowflakeError (msg : String) : Bool :=
  !(pyIn "EXECUTION_STATUS: SUCCESS" msg) &&
    (!(pyIn "ERROR_CODE: None" msg) || !(pyIn "ERROR_MESSAGE: None" msg))

/-- Per-event body of `MonitorAgent._search_errors` (and the identical dedup
guard in `monitor.py`): skip if the id was seen, otherwise add the id to the
dedup set and record the event as an incident exactly when its message
classifies as an error. -/
def searchStep (st : List String × List LogEvent) (ev : LogEvent) :
    List String × List LogEvent :=
  if ev.eventId ∈ st.1 then st
  else
    let seen := ev.eventId :: st.1
    if isSnowflakeError ev.message then (seen, st.2 ++ [ev]) else (seen, st.2)

/-- `MonitorAgent._search_errors` over a response's event list. -/
def searchErrors (st : List String × List LogEvent) (events : List LogEvent) :
    List String × List LogEvent :=
  events.foldl searchStep st

/-! ## Monitor cleanup (`monitor.py run`, lines 176-181)

`run` keeps two pieces of per-monitor state across polling cycles: the
`seen_event_ids` dedup set and the `recent_pods` map from pod key to the
time it was last processed (seconds, modelled as `Int`).  The end-of-cycle
cleanup rebuilds `recent_pods`, keeping entries younger than 60 seconds; it
never touches `seen_event_ids`. -/

structure MonitorLoopState where
  seenEventIds : List String
  recentPods : List (String × Int)
deriving Repr, DecidableEq

/-- The end-of-cycle cleanup in `MonitorAgent.run`:
`self.recent_pods = {k: v for k, v in ... if (current_time - v).total_seconds() < 60}`. -/
def cleanupCycle (now : Int) (st : MonitorLoopState) : MonitorLoopState :=
  { st with recentPods := st.recentPods.filter (fun kv => now - kv.2 < 60) }

/-! ## Cursor tracker (`analyzer_agent.py _read_new_errors`,
`agent.py run`)

Both read loops do `f.seek(last_position); new = f.read();
last_position = f.tell()`.  A text file of current content `content` with a
stored offset `pos` behaves as: seeking past end-of-file is allowed and
`read()` then returns the empty string with `tell()` still at `pos`;
otherwise `read()` returns the suffix from `pos` and `tell()` lands at the
end of the file. -/

def readNew (content : String) (pos : Nat) : String × Nat :=
  let data := content.drop pos
  let newPos := if pos ≤ content.length then content.length else pos
  (data, newPos)

/-! ## Remediation executor, warehouse backend (`fixer.py execute_fix`)

`execute_fix` iterates the generated `sql_commands` and hands each one to
`cursor.execute` with no filtering of any kind; a `ProgrammingError` on a
command aborts the remaining ones.  The warehouse is abstracted by
`outcome : String → Bool` (`true` = the command executes without raising a
`ProgrammingError`).  The first component of the result is the spy trace:
the exact sequence of commands passed to `cursor.execute`, in order; the
second is the returned success flag. -/

def executeFixTrace (outcome : String → Bool) : List String → List String × Bool
  | [] => ([], true)
  | cmd :: rest =>
    if outcome cmd then
      let (trace, ok) := executeFixTrace outcome rest
      (cmd :: trace, ok)
    else ([cmd], false)

/-- Modelled from the spec: section 4.5's strict GRANT allowlist that the
spec requires `SqlGrant` commands to pass before reaching the warehouse — a
single GRANT statement scoped to `ON TABLE ... TO ROLE ...` ending in a
statement terminator.  No such predicate exists anywhere in the source; this
definition only states the spec side of the claim. -/
def grantAllowlist (cmd : String) : Bool :=
  let t := cmd.toList.dropWhile (fun c => c = ' ') |>.reverse.dropWhile (fun c => c = ' ') |>.reverse
  "GRANT ".toList.isPrefixOf t && pyIn " ON TABLE " (String.mk t) &&
    pyIn " TO ROLE " (String.mk t) && ";".toList.isPrefixOf t.reverse &&
    ((t.filter (fun c => c = ';')).length = 1)

/-! ## Feedback loop controller

`FixerAgent.receive_error` reports executor and verification failures to
`self.analyzer_agent.receive_feedback(...)` (`fixer.py` lines 150-163), but
no class in the repository defines `receive_feedback`: the controller that
re-invokes the classifier with feedback is absent from the source. -/

structure AnalysisMsg where
  rootCause : String
  remediationSteps : List String
deriving Repr, DecidableEq

inductive FixOutcome where
  | fixed
  | exhausted
deriving Repr, DecidableEq

/-- Modelled from the spec: section 4.7's per-incident feedback loop that
`receive_feedback` was meant to drive, with the explicit maximum retry count
the spec mandates.  Each round classifies (with the accumulated feedback),
executes, and verifies; an executor or verification failure feeds the failure
description back into the next classification; the retry budget bounds the
number of rounds.  The result carries the outcome and the number of
classifier invocations made. -/
def feedbackLoop (classify : Option String → AnalysisMsg)
    (execFix : AnalysisMsg → Bool × String)
    (verifyFix : AnalysisMsg → Bool × String) :
    Nat → Option String → FixOutcome × Nat
  | 0, _ => (.exhausted, 0)
  | budget + 1, fb =>
    let a := classify fb
    let (ok, msg) := execFix a
    if ok then
      let (verified, vmsg) := verifyFix a
      if verified then (.fixed, 1)
      else
        let (r, k) := feedbackLoop classify execFix verifyFix budget (some vmsg)
        (r, k + 1)
    else
      let (r, k) := feedbackLoop classify execFix verifyFix budget (some msg)
      (r, k + 1)

/-! ## JSON values and `json.loads`

`agent.py` uses `json.loads` both in `_extract_pod_info` and in
`analyze_error`.  JSON values are modelled by `Json`; numbers keep their
literal text (no numeric field of any payload is inspected by the code).
Characters are written via `Char.ofNat` where convenient. -/

def openBraceChar : Char := Char.ofNat 123

def closeBraceChar : Char := Char.ofNat 125

def backquoteChar : Char := Char.ofNat 96

inductive Json where
  | null
  | bool (b : Bool)
  | num (lit : String)
  | str (s : String)
  | arr (elems : List Json)
  | obj (members : List (String × Json))

/-- JSON structural whitespace accepted by `json.loads`. -/
def isJsonWs (c : Char) : Bool :=
  c = ' ' || c = '\t' || c = '\n' || c = '\r'

def skipWs : List Char → List Char
  | [] => []
  | c :: cs => if isJsonWs c then skipWs cs else c :: cs

/-- Value of one hexadecimal digit (for `\uXXXX` escapes). -/
def hexDigitVal (c : Char) : Option Nat :=
  let n := c.toNat
  if 48 ≤ n && n ≤ 57 then some (n - 48)
  else if 97 ≤ n && n ≤ 102 then some (n - 87)
  else if 65 ≤ n && n ≤ 70 then some (n - 55)
  else none

/-- Body of a JSON string after the opening quote; returns the decoded
content and the remainder after the closing quote.  Escapes: the standard
single-character ones and `\uXXXX` (surrogate pairs are not recombined —
none of the embedded payloads use them). -/
def parseStringBody : List Char → Option (List Char × List Char)
  | [] => none
  | '\\' :: 'u' :: h1 :: h2 :: h3 :: h4 :: rest =>
    match hexDigitVal h1, hexDigitVal h2, hexDigitVal h3, hexDigitVal h4 with
    | some a, some b, some c, some d =>
      (parseStringBody rest).map fun (s, r) =>
        (Char.ofNat (((a * 16 + b) * 16 + c) * 16 + d) :: s, r)
    | _, _, _, _ => none
  | '\\' :: e :: rest =>
    let dec : Option Char :=
      if e = '"' then some '"'
      else if e = '\\' then some '\\'
      else if e = '/' then some '/'
      else if e = 'b' then some (Char.ofNat 8)
      else if e = 'f' then some (Char.ofNat 12)
      else if e = 'n' then some '\n'
      else if e = 'r' then some '\r'
      else if e = 't' then some '\t'
      else none
    match dec with
    | some c => (parseStringBody rest).map fun (s, r) => (c :: s, r)
    | none => none
  | '"' :: rest => some ([], rest)
  | c :: rest => (parseStringBody rest).map fun (s, r) => (c :: s, r)

/-- JSON number literal: `-?(0|[1-9][0-9]*)(\.[0-9]+)?([eE][+-]?[0-9]+)?`,
kept as its text together with the remainder. -/
def parseNumber (cs : List Char) : Option (String × List Char) :=
  let signSplit : List Char × List Char :=
    match cs with
    | '-' :: rest => (['-'], rest)
    | _ => ([], cs)
  let sign := signSplit.1
  let cs1 := signSplit.2
  let intPart := cs1.takeWhile (fun c => c.isDigit)
  let cs2 := cs1.dropWhile (fun c => c.isDigit)
  let intOk : Bool :=
    match intPart with
    | [] => false
    | ['0'] => true
    | d :: _ => d ≠ '0'
  if !intOk then none
  else
    let fracSplit : List Char × List Char :=
      match cs2 with
      | '.' :: rest =>
        let fd := rest.takeWhile (fun c => c.isDigit)
        if fd.isEmpty then ([], cs2)
        else ('.' :: fd, rest.dropWhile (fun c => c.isDigit))
      | _ => ([], cs2)
    let frac := fracSplit.1
    let cs3 := fracSplit.2
    let fracBad : Bool :=
      match cs2 with
      | '.' :: rest => (rest.takeWhile (fun c => c.isDigit)).isEmpty
      | _ => false
    if fracBad then none
    else
      let expSplit : List Char × List Char :=
        match cs3 with
        | e :: rest =>
          if e = 'e' || e = 'E' then
            let esSplit : List Char × List Char :=
              match rest with
              | s :: r2 => if s = '+' || s = '-' then ([s], r2) else ([], rest)
              | [] => ([], rest)
            let ed := esSplit.2.takeWhile (fun c => c.isDigit)
            if ed.isEmpty then ([], cs3)
            else (e :: (esSplit.1 ++ ed), esSplit.2.dropWhile (fun c => c.isDigit))
          else ([], cs3)
        | [] => ([], cs3)
      some (String.mk (sign ++ intPart ++ frac ++ expSplit.1), expSplit.2)

mutual

/-- One JSON value at the current (whitespace-skipped) position. -/
def parseValue : Nat → List Char → Option (Json × List Char)
  | 0, _ => none
  | fuel + 1, cs =>
    match cs with
    | [] => none
    | c :: rest =>
      if c = '"' then
        (parseStringBody rest).map fun (s, r) => (.str (String.mk s), r)
      else if c = openBraceChar then
        match skipWs rest with
        | c2 :: r2 =>
          if c2 = closeBraceChar then some (.obj [], r2)
          else
            (parseMembers fuel (c2 :: r2)).map fun (ms, r) => (.obj ms, r)
        | [] => none
      else if c = '[' then
        match skipWs rest with
        | ']' :: r2 => some (.arr [], r2)
        | r2 => (parseElems fuel r2).map fun (xs, r) => (.arr xs, r)
      else if [c] ++ rest.take 3 = "true".toList then some (.bool true, rest.drop 3)
      else if [c] ++ rest.take 4 = "false".toList then some (.bool false, rest.drop 4)
      else if [c] ++ rest.take 3 = "null".toList then some (.null, rest.drop 3)
      else (parseNumber cs).map fun (l, r) => (.num l, r)

/-- Members of an object, positioned at a key; consumes the closing brace. -/
def parseMembers : Nat → List Char → Option (List (String × Json) × List Char)
  | 0, _ => none
  | fuel + 1, cs =>
    match cs with
    | '"' :: rest =>
      match parseStringBody rest with
      | none => none
      | some (k, r1) =>
        match skipWs r1 with
        | ':' :: r2 =>
          match parseValue fuel (skipWs r2) with
          | none => none
          | some (v, r3) =>
            match skipWs r3 with
            | c :: r4 =>
              if c = ',' then
                (parseMembers fuel (skipWs r4)).map fun (ms, r) =>
                  ((String.mk k, v) :: ms, r)
              else if c = closeBraceChar then some ([(String.mk k, v)], r4)
              else none
            | [] => none
        | _ => none
    | _ => none

/-- Elements of an array, positioned at a value; consumes the `]`. -/
def parseElems : Nat → List Char → Option (List Json × List Char)
  | 0, _ => none
  | fuel + 1, cs =>
    match parseValue fuel cs with
    | none => none
    | some (v, r1) =>
      match skipWs r1 with
      | ',' :: r2 => (parseElems fuel (skipWs r2)).map fun (xs, r) => (v :: xs, r)
      | ']' :: r2 => some ([v], r2)
      | _ => none

end

/-- `json.loads`: a single JSON document with surrounding whitespace;
`none` models `json.JSONDecodeError`.  The fuel is generous: every two
units of fuel consume at least one input character. -/
def jsonLoads (s : String) : Option Json :=
  match parseValue (2 * s.length + 2) (skipWs s.toList) with
  | some (j, rest) => if (skipWs rest).isEmpty then some j else none
  | none => none

/-! ## Python attribute access on parsed JSON

`dict.get` on a parsed JSON value.  A JSON object parses to a Python dict in
which a duplicated key keeps its last value; `null` parses to `None`, which
`.get` returns and on which a further `.get` raises `AttributeError`.
Exceptions other than `json.JSONDecodeError` are NOT caught by
`_extract_pod_info`, so they are modelled by `Except`. -/

abbrev Py (α : Type) := Except String α

/-- Last-wins lookup among an object's members (Python dict semantics for
duplicate JSON keys). -/
def lookupLast (kvs : List (String × Json)) (k : String) : Option Json :=
  ((kvs.filter (fun kv => kv.1 = k)).map Prod.snd).getLast?

/-- `j.get(k, d)`: only dicts have `.get`; anything else (including `None`)
raises `AttributeError`. -/
def pyGetD (j : Json) (k : String) (d : Json) : Py Json :=
  match j with
  | .obj kvs => .ok ((lookupLast kvs k).getD d)
  | _ => .error "AttributeError"

/-- `j.get(k)`: `none` models a result of Python `None`, whether the key is
absent or its value is JSON `null`. -/
def pyGetNone (j : Json) (k : String) : Py (Option Json) :=
  match j with
  | .obj kvs =>
    .ok (match lookupLast kvs k with
         | some .null => none
         | v => v)
  | _ => .error "AttributeError"

/-- `for x in j`: lists yield elements, dicts yield their keys, strings yield
their characters, anything else raises `TypeError`. -/
def pyIter (j : Json) : Py (List Json) :=
  match j with
  | .arr xs => .ok xs
  | .obj kvs => .ok (kvs.map (fun kv => .str kv.1))
  | .str s => .ok (s.toList.map (fun c => .str (String.mk [c])))
  | _ => .error "TypeError"

/-! ## Error extractor (`agent.py _extract_pod_info`) -/

/-- Python `\s` (ASCII range): space, tab, LF, CR, VT, FF. -/
def isPyWs (c : Char) : Bool :=
  c = ' ' || c = '\t' || c = '\n' || c = '\r' || c = Char.ofNat 11 || c = Char.ofNat 12

def skipPyWs : List Char → List Char
  | [] => []
  | c :: cs => if isPyWs c then skipPyWs cs else c :: cs

/-- Match `\s+` (at least one whitespace char, then greedily all of them).
The following pattern element is always a non-whitespace literal, so the
greedy consumption is exact. -/
def expectWs1 : List Char → Option (List Char)
  | c :: rest => if isPyWs c then some (skipPyWs rest) else none
  | [] => none

def expectLit (lit : List Char) (cs : List Char) : Option (List Char) :=
  if lit.isPrefixOf cs then some (cs.drop lit.length) else none

/-- Maximal `[^\s]+` run at the current position, with the remainder. -/
def splitRun (cs : List Char) : List Char × List Char :=
  (cs.takeWhile (fun c => !isPyWs c), cs.dropWhile (fun c => !isPyWs c))

/-- Greedy split of `([^\s]+)/([^\s]+)` over a non-whitespace run: the last
`/` leaving both sides nonempty (the first group is greedy and backtracks
from the right). -/
def splitLastSlash (run : List Char) : Option (List Char × List Char) :=
  (((List.range run.length).filter
      (fun i => run.getD i ' ' = '/' && 1 ≤ i && i + 1 < run.length)).getLast?).map
    (fun i => (run.take i, run.drop (i + 1)))

/-- `Container\s+([^\s]+)\s+in\s+pod\s+` at one position: returns group 1
and the remainder (positioned at the pod run). -/
def matchOOMHead (cs : List Char) : Option (List Char × List Char) := do
  let r1 ← expectLit "Container".toList cs
  let r2 ← expectWs1 r1
  let (g1, r3) := splitRun r2
  if g1.isEmpty then none else do
  let r4 ← expectWs1 r3
  let r5 ← expectLit "in".toList r4
  let r6 ← expectWs1 r5
  let r7 ← expectLit "pod".toList r6
  let r8 ← expectWs1 r7
  pure (g1, r8)

/-- `\s+killed\s+due\s+to\s+OutOfMemory` from the given position. -/
def matchOOMTail (cs : List Char) : Option Unit := do
  let r10 ← expectWs1 cs
  let r11 ← expectLit "killed".toList r10
  let r12 ← expectWs1 r11
  let r13 ← expectLit "due".toList r12
  let r14 ← expectWs1 r13
  let r15 ← expectLit "to".toList r14
  let r16 ← expectWs1 r15
  let _ ← expectLit "OutOfMemory".toList r16
  pure ()

/-- The pattern
`Container\s+([^\s]+)\s+in\s+pod\s+([^\s]+)/([^\s]+)\s+killed\s+due\s+to\s+OutOfMemory`
tried at one position; each quantifier here is deterministic given its
successor (see the comments above), so plain sequencing is exact.  Returns
`(container, namespace, pod)` — groups 1..3. -/
def matchOOMAt (cs : List Char) : Option (String × String × String) := do
  let (g1, r8) ← matchOOMHead cs
  let (run2, r9) := splitRun r8
  match splitLastSlash run2 with
  | none => none
  | some (g2, g3) => do
    let _ ← matchOOMTail r9
    pure (String.mk g1, String.mk g2, String.mk g3)

/-- `re.search` of the OOM text pattern: leftmost matching start position. -/
def oomSearch : List Char → Option (String × String × String)
  | [] => none
  | c :: rest =>
    match matchOOMAt (c :: rest) with
    | some r => some r
    | none => oomSearch rest

/-- `re.search(r'\{.*\}', msg, re.DOTALL)`: with the greedy dot-all body this
is the span from the first `{` to the last `}`, provided the latter comes
after the former. -/
def braceSpan (s : String) : Option String :=
  let cs := s.toList
  match cs.findIdx? (fun c => c = openBraceChar) with
  | none => none
  | some i =>
    match cs.reverse.findIdx? (fun c => c = closeBraceChar) with
    | none => none
    | some rj =>
      let j := cs.length - 1 - rj
      if i < j then some (String.mk ((cs.drop i).take (j - i + 1))) else none

/-- The scan of `containerStatuses` inside `_extract_pod_info`: the first
status whose `lastState.terminated.reason` equals `"OOMKilled"`. -/
def findOOMStatus : List Json → Py (Option Json)
  | [] => .ok none
  | s :: rest => do
    let ls ← pyGetD s "lastState" (.obj [])
    let t ← pyGetD ls "terminated" (.obj [])
    let r ← pyGetNone t "reason"
    match r with
    | some (.str reason) =>
      if reason = "OOMKilled" then pure (some s) else findOOMStatus rest
    | _ => findOOMStatus rest

/-- Lines 71-72 of `agent.py`:
`namespace = event_data.get("objectRef", {}).get("namespace")` and
`pod_name = event_data.get("objectRef", {}).get("name")`, in that order.
Returns `(pod_name, namespace)`. -/
def auditIdentity (ev : Json) : Py (Option Json × Option Json) :=
  match pyGetD ev "objectRef" (.obj []) with
  | .error e => .error e
  | .ok oref =>
    match pyGetNone oref "namespace" with
    | .error e => .error e
    | .ok ns =>
      match pyGetD ev "objectRef" (.obj []) with
      | .error e => .error e
      | .ok oref2 =>
        match pyGetNone oref2 "name" with
        | .error e => .error e
        | .ok podName => .ok (podName, ns)

/-- Line 73 of `agent.py`:
`event_data.get("requestObject", {}).get("status", {}).get("containerStatuses", [])`,
handed to the `for` loop. -/
def auditContainerStatuses (ev : Json) : Py (List Json) :=
  match pyGetD ev "requestObject" (.obj []) with
  | .error e => .error e
  | .ok reqObj =>
    match pyGetD reqObj "status" (.obj []) with
    | .error e => .error e
    | .ok statusJ =>
      match pyGetD statusJ "containerStatuses" (.arr []) with
      | .error e => .error e
      | .ok csJson => pyIter csJson

/-- The JSON-audit fallback branch of `_extract_pod_info` applied to the
parsed payload: identity fields, the container-status scan, and the `name`
of the first OOMKilled status; all-`none` when no status matches (the
`for`'s exhaustion path, after the warning log). -/
def extractFromAudit (ev : Json) : Py (Option Json × Option Json × Option Json) :=
  match auditIdentity ev with
  | .error e => .error e
  | .ok (podName, ns) =>
    match auditContainerStatuses ev with
    | .error e => .error e
    | .ok statuses =>
      match findOOMStatus statuses with
      | .error e => .error e
      | .ok (some st) =>
        match pyGetNone st "name" with
        | .error e => .error e
        | .ok cname => .ok (podName, ns, cname)
      | .ok none => .ok (none, none, none)

/-- `ErrorAnalyzerAgent._extract_pod_info`: try the human-readable text
pattern, then fall back to the JSON audit-payload lookup.  Returns
`(pod, namespace, container)`; `none` components model Python `None`.
Only `json.JSONDecodeError` is caught, so `.get` on a non-dict inside the
JSON branch propagates as an exception (`Except.error`). -/
def extractPodInfo (msg : String) : Py (Option Json × Option Json × Option Json) :=
  match oomSearch msg.toList with
  | some (container, ns, pod) => .ok (some (.str pod), some (.str ns), some (.str container))
  | none =>
    match braceSpan msg with
    | none => .ok (none, none, none)
    | some sub =>
      match jsonLoads sub with
      | none => .ok (none, none, none)
      | some ev => extractFromAudit ev

/-! ## Root-cause classifier response parsing (`agent.py analyze_error`,
lines 174-193) -/

/-- Close of a fenced block: optional whitespace then three backquotes. -/
def isFenceClose (cs : List Char) : Bool :=
  [backquoteChar, backquoteChar, backquoteChar].isPrefixOf (skipPyWs cs)

/-- Lazy body of `(\{.*?\})\s*` before the closing fence: scan forward,
stopping at the first `}` that is followed by the closing fence. -/
def fencedTail (acc : List Char) : List Char → Option String
  | [] => none
  | c :: rest =>
    if c = closeBraceChar && isFenceClose rest then
      some (String.mk ((c :: acc).reverse))
    else fencedTail (c :: acc) rest

/-- The fenced pattern tried at one position:
literal backquote-backquote-backquote-`json`, then `\s*`, then the lazy
brace group, then `\s*` and the closing fence. -/
def tryFencedAt (cs : List Char) : Option String :=
  match expectLit [backquoteChar, backquoteChar, backquoteChar, 'j', 's', 'o', 'n'] cs with
  | none => none
  | some r1 =>
    match skipPyWs r1 with
    | c :: r2 => if c = openBraceChar then fencedTail [c] r2 else none
    | [] => none

/-- `re.search(r"json-fence (\{.*?\}) fence", reply, re.DOTALL)` (with the
fences written as three backquotes): leftmost start, lazy body; returns
group 1. -/
def extractFencedJson (s : String) : Option String :=
  let rec go : List Char → Option String
    | [] => none
    | c :: rest =>
      match tryFencedAt (c :: rest) with
      | some g => some g
      | none => go rest
  go s.toList

/-- The parsing part of `ErrorAnalyzerAgent.analyze_error` for a raw
classifier reply: take the fenced JSON block if present, otherwise the whole
reply; `json.loads` it; on `JSONDecodeError` degrade to the fixed root cause
with the whole raw reply as the single remediation step.  Total — it never
raises. -/
def parseAnalyzerReply (reply : String) : Json :=
  let jsonStr :=
    match extractFencedJson reply with
    | some g => g
    | none => reply
  match jsonLoads jsonStr with
  | some j => j
  | none =>
    .obj [("root_cause", .str "Failed to parse JSON from LLM"),
          ("remediation_steps", .arr [.str reply])]

/-! ## Orchestrator patch (`agent.py _modify_pod_manifest`) -/

structure Container where
  name : String
  cpuLimit : Option String
  memLimit : Option String
  cpuRequest : Option String
  memRequest : Option String
deriving Repr, DecidableEq

/-- Lines 106-118: the CPU arithmetic applied to `limits.get('cpu', '500m')`.
`none` models a `ValueError` from `int()`/`float()` (caught further out).
Returns (new limit, new request). -/
def cpuTransform (cpuLimit : String) : Option (String × String) :=
  if pyIn "m" cpuLimit then
    match pyInt? (pyReplace cpuLimit "m" "") with
    | some v =>
      let cpuVal := v * 2
      some (toString cpuVal ++ "m", toString (cpuVal.fdiv 2) ++ "m")
    | none => none
  else
    match pyFloat? cpuLimit with
    | some q =>
      let cpuVal := q.double
      some (pyFloatRepr cpuVal, pyFloatRepr cpuVal.halve)
    | none => none

inductive MemPatch where
  | changed (lim req : String)
  | unchanged
deriving Repr, DecidableEq

/-- Lines 120-127: the memory arithmetic applied to
`limits.get('memory', '512Mi')`.  An `Mi` limit goes through integer
arithmetic, a `Gi` limit through float arithmetic; any other unit is left
untouched (there is no `else` branch). -/
def memTransform (memLimit : String) : Option MemPatch :=
  if pyIn "Mi" memLimit then
    match pyInt? (pyReplace memLimit "Mi" "") with
    | some v =>
      let memVal := v * 2
      some (.changed (toString memVal ++ "Mi") (toString (memVal.fdiv 2) ++ "Mi"))
    | none => none
  else if pyIn "Gi" memLimit then
    match pyFloat? (pyReplace memLimit "Gi" "") with
    | some q =>
      let memVal := q.double
      some (.changed (pyFloatRepr memVal ++ "Gi") (pyFloatRepr memVal.halve ++ "Gi"))
    | none => none
  else some .unchanged

/-- The per-container mutation (lines 100-128): defaults applied via
`.get`, CPU always rewritten, memory rewritten only for `Mi`/`Gi` suffixes.
`cpu_request`/`memory_request` are read with defaults but never used before
being overwritten. -/
def modifyContainer (c : Container) : Option Container :=
  let cpuL := c.cpuLimit.getD "500m"
  let memL := c.memLimit.getD "512Mi"
  match cpuTransform cpuL with
  | none => none
  | some (cl, cr) =>
    match memTransform memL with
    | none => none
    | some (.changed ml mr) =>
      some { c with cpuLimit := some cl, cpuRequest := some cr,
                    memLimit := some ml, memRequest := some mr }
    | some .unchanged =>
      some { c with cpuLimit := some cl, cpuRequest := some cr }

/-- The container loop with `break`/`else`: modify the first container with
the requested name; `none` when no container matches (the `for`/`else`
branch) or when the arithmetic raised. -/
def modifyContainers : List Container → String → Option (List Container)
  | [], _ => none
  | c :: rest, target =>
    if c.name = target then (modifyContainer c).map (· :: rest)
    else (modifyContainers rest target).map (c :: ·)

structure Manifest where
  containers : List Container
deriving Repr, DecidableEq

/-- `ErrorAnalyzerAgent._modify_pod_manifest`.  The `kubectl get` subprocess
is abstracted by its observable result `fetched` (`none` = nonzero return
code).  Mirrors the source's returns: every failure path yields
`(None, [])`; the success path writes the patched manifest to
`temp_manifests/<ns>_<pod>.yaml` and returns that path together with the
delete-then-apply command pair. -/
def modifyPodManifest (fetched : Option Manifest) (podName ns containerName : String) :
    Option String × List String :=
  match fetched with
  | none => (none, [])
  | some manifest =>
    if manifest.containers.isEmpty then (none, [])
    else
      match modifyContainers manifest.containers containerName with
      | none => (none, [])
      | some _ =>
        let manifestFile := "./temp_manifests/" ++ ns ++ "_" ++ podName ++ ".yaml"
        let deleteCmd := "kubectl delete pod " ++ podName ++ " -n " ++ ns
        let applyCmd := "kubectl apply -f " ++ manifestFile
        (some manifestFile, [deleteCmd, applyCmd])

/-! ## Concrete fixtures used by witnesses and counterexamples -/

/-- The spec's scenario container: existing limits cpu `500m`, memory `512Mi`. -/
def exContainer : Container :=
  { name := "c1", cpuLimit := some "500m", memLimit := some "512Mi",
    cpuRequest := some "250m", memRequest := some "256Mi" }

def exManifest : Manifest := ⟨[exContainer]⟩

/-- A well-formed OOM audit payload: objectRef with namespace and name, one
container status with an OOMKilled termination and a container name. -/
def oomOkPayload : String :=
  "\x7b\"objectRef\": \x7b\"namespace\": \"ns1\", \"name\": \"p1\"\x7d, \"requestObject\": \x7b\"status\": \x7b\"containerStatuses\": [\x7b\"lastState\": \x7b\"terminated\": \x7b\"reason\": \"OOMKilled\"\x7d\x7d, \"name\": \"c1\"\x7d]\x7d\x7d\x7d"

/-- The same payload with the container `name` field removed: it still has an
entry whose last terminated reason is `OOMKilled`. -/
def oomNoNamePayload : String :=
  "\x7b\"objectRef\": \x7b\"namespace\": \"ns1\", \"name\": \"p1\"\x7d, \"requestObject\": \x7b\"status\": \x7b\"containerStatuses\": [\x7b\"lastState\": \x7b\"terminated\": \x7b\"reason\": \"OOMKilled\"\x7d\x7d\x7d]\x7d\x7d\x7d"

/-- The status entry of `oomNoNamePayload`: OOMKilled reason, no name. -/
def oomNoNameEntry : Json :=
  .obj [("lastState", .obj [("terminated", .obj [("reason", .str "OOMKilled")])])]

def oomOkStatusEntry : Json :=
  .obj [("lastState", .obj [("terminated", .obj [("reason", .str "OOMKilled")])]),
        ("name", .str "c1")]

def oomOkRef : Json := .obj [("namespace", .str "ns1"), ("name", .str "p1")]

def oomOkCs : Json := .arr [oomOkStatusEntry]

def oomOkStatus : Json := .obj [("containerStatuses", oomOkCs)]

def oomOkReq : Json := .obj [("status", oomOkStatus)]

def oomOkJson : Json := .obj [("objectRef", oomOkRef), ("requestObject", oomOkReq)]

/-- A classifier reply embedding its JSON object in a fenced code block. -/
def fencedOkReply : String :=
  "Here is the fix:\n```json\n\x7b\"root_cause\": \"missing grant\", \"remediation_steps\": [\"GRANT SELECT ON TABLE db.s.t TO ROLE r;\"]\x7d\n```"

def fencedOkJson : Json :=
  .obj [("root_cause", .str "missing grant"),
        ("remediation_steps", .arr [.str "GRANT SELECT ON TABLE db.s.t TO ROLE r;"])]

/-- Group 1 of the fenced pattern on `fencedOkReply`. -/
def fencedOkGroup : String :=
  "\x7b\"root_cause\": \"missing grant\", \"remediation_steps\": [\"GRANT SELECT ON TABLE db.s.t TO ROLE r;\"]\x7d"

/-! ## Theorems -/

set_option maxRecDepth 20000

/-- C1: the claim says a SQL command is executed against the warehouse only
if it matches the strict GRANT allowlist, and that a failing command is never
passed to the warehouse executor.  The code has no such gate:
`FixerAgent.execute_fix` passes every generated command to `cursor.execute`.
Here a plain `DROP TABLE` — rejected by the spec's allowlist — appears in the
spy trace of commands handed to the warehouse. -/
theorem c1_sql_commands_executed_without_allowlist :
    executeFixTrace (fun _ => true) ["DROP TABLE important_data;"]
        = (["DROP TABLE important_data;"], true) ∧
    grantAllowlist "DROP TABLE important_data;" = false :=
  ⟨rfl, rfl⟩

/-- C2 counterexample: the claim says memory `"1Gi"` becomes limit `"2Gi"`
and request `"1Gi"`; the `Gi` branch of `_modify_pod_manifest` goes through
Python float arithmetic and f-string formatting, producing `"2.0Gi"` and
`"1.0Gi"` instead. -/
theorem c2_gi_float_formatting_counterexample :
    memTransform "1Gi" = some (.changed "2.0Gi" "1.0Gi") ∧
    memTransform "1Gi" ≠ some (.changed "2Gi" "1Gi") :=
  ⟨rfl, by decide⟩

/-- C2 (amended): milli-CPU limits are doubled and the request set to half
the new limit (i.e. the old value), likewise `Mi` memory limits; the `Gi`
branch doubles and halves through float arithmetic, so `"1Gi"` yields limit
`"2.0Gi"` and request `"1.0Gi"` (not `"2Gi"`/`"1Gi"`). -/
theorem c2_resource_patch_arithmetic :
    (∀ (s : String) (v : Int), pyIn "m" s = true →
        pyInt? (pyReplace s "m" "") = some v →
        cpuTransform s = some (toString (v * 2) ++ "m", toString v ++ "m")) ∧
    (∀ (s : String) (v : Int), pyIn "Mi" s = true →
        pyInt? (pyReplace s "Mi" "") = some v →
        memTransform s = some (.changed (toString (v * 2) ++ "Mi") (toString v ++ "Mi"))) ∧
    memTransform "1Gi" = some (.changed "2.0Gi" "1.0Gi") := by
  refine ⟨?_, ?_, rfl⟩
  · intro s v h1 h2
    simp only [cpuTransform, h1, if_true, h2]
    rw [Int.mul_fdiv_cancel v (by decide)]
  · intro s v h1 h2
    simp only [memTransform, h1, if_true, h2]
    rw [Int.mul_fdiv_cancel v (by decide)]

/-- C2 witness: the amended claim evaluated at the spec's CPU example. -/
theorem c2_resource_patch_arithmetic_witness :
    pyIn "m" "500m" = true ∧
    cpuTransform "500m" = some (toString ((500 : Int) * 2) ++ "m", toString (500 : Int) ++ "m") :=
  ⟨by decide, c2_resource_patch_arithmetic.1 "500m" 500 (by decide) (by decide)⟩

/-- C3: whenever `_modify_pod_manifest` succeeds (returns a manifest file),
the remediation command list is exactly the delete of the pod in its
namespace followed by the apply of the rewritten manifest, in that order. -/
theorem c3_delete_then_apply (fetched : Option Manifest)
    (podName ns containerName mf : String) (cmds : List String)
    (h : modifyPodManifest fetched podName ns containerName = (some mf, cmds)) :
    cmds = ["kubectl delete pod " ++ podName ++ " -n " ++ ns, "kubectl apply -f " ++ mf] := by
  unfold modifyPodManifest at h
  split at h
  · simp at h
  · split at h
    · simp at h
    · split at h
      · simp at h
      · simp only [Prod.mk.injEq, Option.some.injEq] at h
        obtain ⟨hf, hc⟩ := h
        subst hf
        subst hc
        rfl

/-- C3 witness: the spec's scenario — pod `p1`, namespace `ns1`, container
`c1` with limits `500m`/`512Mi` — yields exactly the two ordered commands. -/
theorem c3_delete_then_apply_witness :
    modifyPodManifest (some exManifest) "p1" "ns1" "c1"
        = (some "./temp_manifests/ns1_p1.yaml",
           ["kubectl delete pod p1 -n ns1", "kubectl apply -f ./temp_manifests/ns1_p1.yaml"]) ∧
    ["kubectl delete pod p1 -n ns1", "kubectl apply -f ./temp_manifests/ns1_p1.yaml"]
        = ["kubectl delete pod " ++ "p1" ++ " -n " ++ "ns1",
           "kubectl apply -f " ++ "./temp_manifests/ns1_p1.yaml"] :=
  ⟨rfl, c3_delete_then_apply (some exManifest) "p1" "ns1" "c1"
    "./temp_manifests/ns1_p1.yaml"
    ["kubectl delete pod p1 -n ns1", "kubectl apply -f ./temp_manifests/ns1_p1.yaml"] rfl⟩

/-- C7 counterexample: the claim says every event-id entry is removed from
the dedup set once older than the retention window.  After an event id was
recorded at time 0, the end-of-cycle cleanup run at time 200 (far past the
60-second window) prunes the recent-pods map but leaves the event id in the
dedup set: `seen_event_ids` is never pruned. -/
theorem c7_dedup_never_pruned_counterexample :
    cleanupCycle 200 ⟨["evt-1"], [("ns1/p1", 0)]⟩ = ⟨["evt-1"], []⟩ ∧
    "evt-1" ∈ (cleanupCycle 200 ⟨["evt-1"], [("ns1/p1", 0)]⟩).seenEventIds :=
  ⟨rfl, by decide⟩

/-- C7 (amended): the periodic cleanup never touches the event-id dedup set
(which therefore grows without bound); it prunes only the
recently-processed-pods map, keeping exactly the entries younger than the
60-second window. -/
theorem c7_cleanup_prunes_recent_pods (now : Int) (st : MonitorLoopState) :
    (cleanupCycle now st).seenEventIds = st.seenEventIds ∧
    (∀ kv : String × Int,
      kv ∈ (cleanupCycle now st).recentPods ↔ kv ∈ st.recentPods ∧ now - kv.2 < 60) := by
  refine ⟨rfl, fun kv => ?_⟩
  simp [cleanupCycle, List.mem_filter]

/-- C7 witness: the amended claim at a concrete state — a fresh pod entry
survives the cleanup, a stale one is dropped, the dedup set is untouched. -/
theorem c7_cleanup_prunes_recent_pods_witness :
    (cleanupCycle 100 ⟨["evt-1"], [("a", 70), ("b", 0)]⟩).seenEventIds = ["evt-1"] ∧
    (("a", (70 : Int)) ∈ (cleanupCycle 100 ⟨["evt-1"], [("a", 70), ("b", 0)]⟩).recentPods) ∧
    ¬ (("b", (0 : Int)) ∈ (cleanupCycle 100 ⟨["evt-1"], [("a", 70), ("b", 0)]⟩).recentPods) :=
  ⟨(c7_cleanup_prunes_recent_pods 100 ⟨["evt-1"], [("a", 70), ("b", 0)]⟩).1,
   ((c7_cleanup_prunes_recent_pods 100 ⟨["evt-1"], [("a", 70), ("b", 0)]⟩).2 ("a", 70)).mpr
     ⟨by decide, by decide⟩,
   fun hmem =>
     absurd (((c7_cleanup_prunes_recent_pods 100 ⟨["evt-1"], [("a", 70), ("b", 0)]⟩).2
       ("b", 0)).mp hmem).2 (by decide)⟩

/-- C8 counterexample: the claim says a detected shrink resets the offset to
0 rather than seeking past end-of-file.  After reading to offset 3 the
source is truncated to empty; the next read seeks to 3 (past end-of-file),
returns nothing, and keeps the offset at 3 — it is not reset to 0. -/
theorem c8_offset_not_reset_counterexample :
    readNew "" 3 = ("", 3) ∧ (readNew "" 3).2 ≠ 0 :=
  ⟨rfl, by decide⟩

/-- C8 (amended): the stored offset never decreases from one read to the
next, the data returned is exactly the suffix from the old offset, and on a
shrunken source (length below the stored offset) the offset is left in place
past end-of-file — there is no truncation detection and no reset to 0. -/
theorem c8_offset_monotone (content : String) (pos : Nat) :
    pos ≤ (readNew content pos).2 ∧
    (readNew content pos).1 = content.drop pos ∧
    (content.length < pos → (readNew content pos).2 = pos) := by
  refine ⟨?_, rfl, ?_⟩
  · unfold readNew
    dsimp only
    split
    · next hle => exact hle
    · exact Nat.le_refl pos
  · intro h
    unfold readNew
    dsimp only
    rw [if_neg (by omega)]

/-- C8 witness: the amended claim at a concrete read — content `"abcdef"`
read from offset 2 advances the offset to 6, and a source truncated below a
stored offset 3 keeps the offset at 3. -/
theorem c8_offset_monotone_witness :
    2 ≤ (readNew "abcdef" 2).2 ∧
    ("" : String).length < 3 ∧ (readNew "" 3).2 = 3 :=
  ⟨(c8_offset_monotone "abcdef" 2).1, by decide,
   (c8_offset_monotone "" 3).2.2 (by decide)⟩

/-- C10: a freshly seen event is recorded as an incident exactly when its
message lacks `EXECUTION_STATUS: SUCCESS` and additionally lacks
`ERROR_CODE: None` or lacks `ERROR_MESSAGE: None`; and an event whose
message contains `EXECUTION_STATUS: SUCCESS` is never recorded, whatever the
state. -/
theorem c10_error_classification (st : List String × List LogEvent) (ev : LogEvent)
    (h : ev.eventId ∉ st.1) :
    ((searchStep st ev).2 = st.2 ++ [ev] ↔
      (pyIn "EXECUTION_STATUS: SUCCESS" ev.message = false ∧
        (pyIn "ERROR_CODE: None" ev.message = false ∨
          pyIn "ERROR_MESSAGE: None" ev.message = false))) ∧
    (∀ st₂ : List String × List LogEvent,
      pyIn "EXECUTION_STATUS: SUCCESS" ev.message = true → (searchStep st₂ ev).2 = st₂.2) := by
  have key : isSnowflakeError ev.message = true ↔
      (pyIn "EXECUTION_STATUS: SUCCESS" ev.message = false ∧
        (pyIn "ERROR_CODE: None" ev.message = false ∨
          pyIn "ERROR_MESSAGE: None" ev.message = false)) := by
    simp [isSnowflakeError, Bool.and_eq_true, Bool.or_eq_true, Bool.not_eq_true']
  constructor
  · rw [← key]
    simp only [searchStep, if_neg h]
    by_cases hb : isSnowflakeError ev.message
    · simp [hb]
    · simp [hb]
  · intro st₂ hsucc
    have hfalse : isSnowflakeError ev.message = false := by
      simp [isSnowflakeError, hsucc]
    simp only [searchStep]
    split
    · rfl
    · simp [hfalse]

/-- C10 witness: the classification at concrete events — a success message
is not recorded, an error message is. -/
theorem c10_error_classification_witness :
    (searchStep ([], []) ⟨"e1", "EXECUTION_STATUS: FAIL\nERROR_CODE: 1234\nERROR_MESSAGE: boom"⟩).2
        = [] ++ [⟨"e1", "EXECUTION_STATUS: FAIL\nERROR_CODE: 1234\nERROR_MESSAGE: boom"⟩] ∧
    (searchStep (["x"], []) ⟨"e2", "QUERY LOG\nEXECUTION_STATUS: SUCCESS\nERROR_CODE: 7"⟩).2 = [] :=
  ⟨(c10_error_classification ([], [])
      ⟨"e1", "EXECUTION_STATUS: FAIL\nERROR_CODE: 1234\nERROR_MESSAGE: boom"⟩
      (by decide)).1.mpr ⟨by decide, Or.inl (by decide)⟩,
   (c10_error_classification (["x"], [])
      ⟨"e2", "QUERY LOG\nEXECUTION_STATUS: SUCCESS\nERROR_CODE: 7"⟩
      (by decide)).2 (["x"], []) (by decide)⟩

/-- The feedback loop with budget 0 is exhausted immediately. -/
theorem feedbackLoop_zero (classify : Option String → AnalysisMsg)
    (execFix verifyFix : AnalysisMsg → Bool × String) (fb : Option String) :
    feedbackLoop classify execFix verifyFix 0 fb = (.exhausted, 0) := rfl

/-- C4: the feedback retry loop (modelled from the spec, since
`receive_feedback` is referenced by `fixer.py` but defined nowhere in the
repository) makes at most `maxRetries` classifier invocations, and when
verification always fails it stops, exhausted, after exactly the configured
maximum. -/
theorem c4_feedback_loop_bounded (classify : Option String → AnalysisMsg)
    (execFix verifyFix : AnalysisMsg → Bool × String) (maxRetries : Nat) (fb : Option String) :
    (feedbackLoop classify execFix verifyFix maxRetries fb).2 ≤ maxRetries ∧
    ((∀ a, (verifyFix a).1 = false) →
      feedbackLoop classify execFix verifyFix maxRetries fb = (.exhausted, maxRetries)) := by
  induction maxRetries generalizing fb with
  | zero => exact ⟨Nat.le_refl 0, fun _ => rfl⟩
  | succ n ih =>
    rcases hex : execFix (classify fb) with ⟨ok, msg⟩
    cases ok with
    | true =>
      rcases hv : verifyFix (classify fb) with ⟨verified, vmsg⟩
      cases verified with
      | true =>
        constructor
        · simp only [feedbackLoop, hex, hv]
          exact Nat.succ_le_succ (Nat.zero_le n)
        · intro hall
          have hcontra := hall (classify fb)
          rw [hv] at hcontra
          simp at hcontra
      | false =>
        rcases hr : feedbackLoop classify execFix verifyFix n (some vmsg) with ⟨r, k⟩
        constructor
        · simp only [feedbackLoop, hex, hv, hr]
          have hk := (ih (some vmsg)).1
          rw [hr] at hk
          exact Nat.succ_le_succ hk
        · intro hall
          have hrec := (ih (some vmsg)).2 hall
          simp only [feedbackLoop, hex, hv, hrec]
          simp
    | false =>
      rcases hr : feedbackLoop classify execFix verifyFix n (some msg) with ⟨r, k⟩
      constructor
      · simp only [feedbackLoop, hex, hr]
        have hk := (ih (some msg)).1
        rw [hr] at hk
        exact Nat.succ_le_succ hk
      · intro hall
        have hrec := (ih (some msg)).2 hall
        simp only [feedbackLoop, hex, hrec]
        simp

/-- C4 witness: retry budget 3, executor succeeding, verification always
failing — 3 classifier invocations, then exhaustion. -/
theorem c4_feedback_loop_bounded_witness :
    (feedbackLoop (fun _ => ⟨"rc", ["step"]⟩) (fun _ => (true, "ok"))
        (fun _ => (false, "verification failed")) 3 none).2 ≤ 3 ∧
    feedbackLoop (fun _ => ⟨"rc", ["step"]⟩) (fun _ => (true, "ok"))
        (fun _ => (false, "verification failed")) 3 none = (.exhausted, 3) :=
  ⟨(c4_feedback_loop_bounded _ _ _ 3 none).1,
   (c4_feedback_loop_bounded _ _ _ 3 none).2 (fun _ => rfl)⟩

/-- After the scanner's step on an event, that event's id is in the dedup set. -/
theorem searchStep_mem_self (st : List String × List LogEvent) (e : LogEvent) :
    e.eventId ∈ (searchStep st e).1 := by
  unfold searchStep
  split
  · next h => exact h
  · dsimp only
    split
    · exact List.mem_cons_self _ _
    · exact List.mem_cons_self _ _

/-- The scanner's step never removes ids from the dedup set. -/
theorem searchStep_mem_mono (st : List String × List LogEvent) (ev : LogEvent)
    {x : String} (h : x ∈ st.1) : x ∈ (searchStep st ev).1 := by
  unfold searchStep
  split
  · exact h
  · dsimp only
    split
    · exact List.mem_cons_of_mem _ h
    · exact List.mem_cons_of_mem _ h

/-- A whole scan never removes ids from the dedup set. -/
theorem searchErrors_mem_mono (events : List LogEvent) (st : List String × List LogEvent)
    {x : String} (h : x ∈ st.1) : x ∈ (searchErrors st events).1 := by
  induction events generalizing st with
  | nil => exact h
  | cons e es ih => exact ih _ (searchStep_mem_mono _ _ h)

/-- An event whose id is in the dedup set is skipped: the step is a no-op. -/
theorem searchStep_skip (st : List String × List LogEvent) (e : LogEvent)
    (h : e.eventId ∈ st.1) : searchStep st e = st := by
  unfold searchStep
  rw [if_pos h]

/-- C6: delivering an event a second time while its id remains in the dedup
set changes nothing — the scan of any event sequence containing `e` twice
yields exactly the state (incident list included) of the scan with the
second delivery removed; and a delivery whose id is already in the set is
skipped as a pure no-op, before the error classification or any recording. -/
theorem c6_dedup_idempotent (st : List String × List LogEvent)
    (pre post : List LogEvent) (e : LogEvent) :
    searchErrors st (pre ++ e :: post ++ [e]) = searchErrors st (pre ++ e :: post) ∧
    (∀ st₂ : List String × List LogEvent, e.eventId ∈ st₂.1 → searchStep st₂ e = st₂) := by
  constructor
  · have h1 : searchErrors st (pre ++ e :: post ++ [e])
        = searchStep (searchErrors st (pre ++ e :: post)) e := by
      rw [show pre ++ e :: post ++ [e] = (pre ++ e :: post) ++ [e] by simp]
      simp only [searchErrors, List.foldl_append, List.foldl_cons, List.foldl_nil]
    have h3 : searchErrors st (pre ++ e :: post)
        = searchErrors (searchStep (searchErrors st pre) e) post := by
      simp only [searchErrors, List.foldl_append, List.foldl_cons]
    rw [h1]
    apply searchStep_skip
    rw [h3]
    exact searchErrors_mem_mono _ _ (searchStep_mem_self _ _)
  · intro st₂ h
    exact searchStep_skip _ _ h

/-- C6 witness: the same error event delivered twice yields the same state
as one delivery, and a step on an already-seen id is a no-op. -/
theorem c6_dedup_idempotent_witness :
    searchErrors ([], []) [⟨"e1", "ERROR_CODE: 5"⟩, ⟨"e1", "ERROR_CODE: 5"⟩]
        = searchErrors ([], []) [⟨"e1", "ERROR_CODE: 5"⟩] ∧
    searchStep (["e1"], []) ⟨"e1", "another message"⟩ = (["e1"], []) :=
  ⟨(c6_dedup_idempotent ([], []) [] [] ⟨"e1", "ERROR_CODE: 5"⟩).1,
   (c6_dedup_idempotent ([], []) [] [] ⟨"e1", "another message"⟩).2 (["e1"], []) (by decide)⟩

/-- C5: the classifier-reply parser uses the fenced JSON block when one is
present, parses the whole reply as JSON only when none is, and when parsing
still fails returns the degraded analysis carrying the whole raw reply as
its single raw-command remediation step — it never raises. -/
theorem c5_classifier_reply_parsing (reply : String) :
    (∀ (g : String) (j : Json), extractFencedJson reply = some g → jsonLoads g = some j →
        parseAnalyzerReply reply = j) ∧
    (∀ j : Json, extractFencedJson reply = none → jsonLoads reply = some j →
        parseAnalyzerReply reply = j) ∧
    (jsonLoads ((extractFencedJson reply).getD reply) = none →
        parseAnalyzerReply reply =
          .obj [("root_cause", .str "Failed to parse JSON from LLM"),
                ("remediation_steps", .arr [.str reply])]) := by
  refine ⟨?_, ?_, ?_⟩
  · intro g j hf hj
    simp only [parseAnalyzerReply, hf, hj]
  · intro j hf hj
    simp only [parseAnalyzerReply, hf, hj]
  · intro hnone
    cases hf : extractFencedJson reply with
    | some g =>
      rw [hf] at hnone
      simp only [Option.getD_some] at hnone
      simp only [parseAnalyzerReply, hf, hnone]
    | none =>
      rw [hf] at hnone
      simp only [Option.getD_none] at hnone
      simp only [parseAnalyzerReply, hf, hnone]

/-- C5 witness: a reply with a fenced JSON block parses to that block's
object. -/
theorem c5_classifier_reply_parsing_witness :
    extractFencedJson fencedOkReply = some fencedOkGroup ∧
    parseAnalyzerReply fencedOkReply = fencedOkJson :=
  ⟨rfl, (c5_classifier_reply_parsing fencedOkReply).1 fencedOkGroup fencedOkJson rfl rfl⟩

/-- C9 counterexample: the claim's hypothesis (objectRef with namespace and
name, a container status whose last terminated reason is `OOMKilled`) is
satisfied by `oomNoNamePayload`, whose matching status simply lacks a `name`
field — yet the extractor returns a null container, not the non-null field
the claim promises. -/
theorem c9_missing_name_counterexample :
    extractPodInfo oomNoNamePayload = .ok (some (.str "p1"), some (.str "ns1"), none) ∧
    findOOMStatus [oomNoNameEntry] = .ok (some oomNoNameEntry) :=
  ⟨rfl, rfl⟩

/-- C9 (amended): for a payload whose JSON parse yields objectRef namespace
and name strings and whose container-status scan finds a first OOMKilled
entry carrying a name, the extractor returns all three fields non-null; the
text pattern is tried first, and when it does not match, the JSON lookup
supplies exactly those fields. -/
theorem c9_extractor_wellformed
    (msg sub : String) (ev oref reqObj statusJ csJson st : Json)
    (statuses : List Json) (ns pname cname : String)
    (hb : braceSpan msg = some sub)
    (hj : jsonLoads sub = some ev)
    (hor : pyGetD ev "objectRef" (Json.obj []) = .ok oref)
    (hns : pyGetNone oref "namespace" = .ok (some (.str ns)))
    (hpn : pyGetNone oref "name" = .ok (some (.str pname)))
    (hro : pyGetD ev "requestObject" (Json.obj []) = .ok reqObj)
    (hst : pyGetD reqObj "status" (Json.obj []) = .ok statusJ)
    (hcs : pyGetD statusJ "containerStatuses" (Json.arr []) = .ok csJson)
    (hit : pyIter csJson = .ok statuses)
    (hfind : findOOMStatus statuses = .ok (some st))
    (hcn : pyGetNone st "name" = .ok (some (.str cname))) :
    (∃ p n c : Json, extractPodInfo msg = .ok (some p, some n, some c)) ∧
    (oomSearch msg.toList = none →
      extractPodInfo msg = .ok (some (.str pname), some (.str ns), some (.str cname))) := by
  have hid : auditIdentity ev = .ok (some (.str pname), some (.str ns)) := by
    simp only [auditIdentity, hor, hns, hpn]
  have hstat : auditContainerStatuses ev = .ok statuses := by
    simp only [auditContainerStatuses, hro, hst, hcs, hit]
  have hjson : extractFromAudit ev
      = .ok (some (.str pname), some (.str ns), some (.str cname)) := by
    simp only [extractFromAudit, hid, hstat, hfind, hcn]
  cases htp : oomSearch msg.toList with
  | some r =>
    obtain ⟨c, n, p⟩ := r
    constructor
    · exact ⟨.str p, .str n, .str c, by simp only [extractPodInfo, htp]⟩
    · intro hcontra
      exact Option.noConfusion hcontra
  | none =>
    have hres : extractPodInfo msg
        = .ok (some (.str pname), some (.str ns), some (.str cname)) := by
      simp only [extractPodInfo, htp, hb, hj, hjson]
    exact ⟨⟨_, _, _, hres⟩, fun _ => hres⟩

/-- C9 witness: the amended claim at a well-formed payload whose matching
status carries a container name. -/
theorem c9_extractor_wellformed_witness :
    extractPodInfo oomOkPayload = .ok (some (.str "p1"), some (.str "ns1"), some (.str "c1")) :=
  (c9_extractor_wellformed oomOkPayload oomOkPayload oomOkJson oomOkRef oomOkReq
      oomOkStatus oomOkCs oomOkStatusEntry [oomOkStatusEntry] "ns1" "p1" "c1"
      rfl rfl rfl rfl rfl rfl rfl rfl rfl rfl rfl).2 rfl

end LogAgent
